import Mathlib

/-!
# Verification of the IoTPy incremental-dataflow runtime

Shallow embedding of the repository's code:

* `src/IoTPy/agent_types/iot.py` — the `iot` and `iot_merge` agent builders
  (their `transition` closures), the `sliding_window_test` composite and the
  tests `test_iot_merge` / `test_iot_class`.
* `src/examples/timing/timing.py` — the NTP clock-drift helpers.

Python `list[start:stop]` slicing (with nonnegative, possibly out-of-range
indices) is embedded as `(l.take stop).drop start`.  Python `int` is embedded
as `ℤ`, stream indices as `ℕ`, and NTP drift values (`float`) as `ℚ` — exact
arithmetic; Python float truthiness (`if drift:`) is `d ≠ 0`.

The `Agent` / scheduler classes (`agent.py`, `run.py`) are imported by the
sources but are not part of this repository snapshot, so the cross-invocation
pointer loop is modelled from the spec (§4.2/§4.3): each invocation is passed
the slice `[pointer, length)` of the subscribed stream and the stored pointer
is replaced by the value the transition returns.
-/

namespace IoTPy

/-- Python slice `l[start:stop]` for nonnegative indices (clamps at the
list's length, empty when `stop ≤ start`). -/
def pySlice {α : Type} (l : List α) (start stop : ℕ) : List α :=
  (l.take stop).drop start

/-- The `InList` record passed to a transition: a backing list together with
the `start` (the agent's pointer) and `stop` (the stream length at invocation
time) of the window the agent may read. -/
structure InList (α : Type) where
  list : List α
  start : ℕ
  stop : ℕ

/-- The failure of one of the `assert` statements inside `iot.transition` or
`iot_merge.transition` (the spec's `ContractViolation`). -/
inductive ContractViolation where
  /-- Assertion failure: `func` returned a negative integer
  (`assert new_start >= 0` in `iot`, the per-element assert in `iot_merge`). -/
  | negativePointer (got : ℤ)
  /-- Assertion failure: `func` in `iot_merge` returned a list of the wrong length
  (`assert len(new_starts) == len(A_list)`). -/
  | wrongArity (expected got : ℕ)
  deriving Repr, DecidableEq

namespace iot

/-- Transition `transition(in_lists, state)` of the agent built by `iot(func, in_stream)`:
slice `A = in_lists[0].list[start:stop]`, call `func`, assert the returned
value is a nonnegative `int` (the `int`-ness assert is `ℤ`'s type here), and
return no output values, the unchanged state, and the single new pointer
`new_start + in_lists[0].start`. -/
def transition {α σ β : Type} (func : List α → ℤ) (inList0 : InList α)
    (state : σ) : Except ContractViolation (List β × σ × List ℤ) :=
  let A := pySlice inList0.list inList0.start inList0.stop
  let new_start := func A
  if 0 ≤ new_start then
    Except.ok ([], state, [new_start + (inList0.start : ℤ)])
  else
    Except.error (ContractViolation.negativePointer new_start)

end iot

namespace iot_merge

/-- Transition `transition(in_lists, state)` of the agent built by
`iot_merge(func, in_streams)`: slice every input, call `func` on the list of
slices, assert the result is a list (static here) of the same length with
nonnegative `int` entries, and return no output values, the unchanged state,
and the entrywise sums `new_starts[i] + in_lists[i].start`. -/
def transition {α σ β : Type} (func : List (List α) → List ℤ)
    (in_lists : List (InList α)) (state : σ) :
    Except ContractViolation (List β × σ × List ℤ) :=
  let A_list := in_lists.map fun il => pySlice il.list il.start il.stop
  let new_starts := func A_list
  if new_starts.length = A_list.length then
    match new_starts.find? (fun ns => decide (ns < 0)) with
    | some bad => Except.error (ContractViolation.negativePointer bad)
    | none =>
        Except.ok ([], state,
          (new_starts.zip in_lists).map fun p => p.1 + (p.2.start : ℤ))
  else
    Except.error (ContractViolation.wrongArity A_list.length new_starts.length)

end iot_merge

namespace sliding_window_test

/-- Method `sliding_window_test.extend(self, A)` with its side effect made explicit:
returns the list of values `self.out_stream.extend(self.output)` appends and
the integer `extend` returns to `iot.transition`.  If fewer than
`window_size` elements are available nothing is appended and `0` is returned;
otherwise `num_steps = 1 + (len(A) - window_size) // step_size` windows
`A[i*step_size : i*step_size + window_size]` are reduced with `func` and
`num_steps * step_size` is returned. -/
def extend {α β : Type} (func : List α → β) (window_size step_size : ℕ)
    (A : List α) : List β × ℕ :=
  if A.length < window_size then
    ([], 0)
  else
    let num_steps := 1 + (A.length - window_size) / step_size
    ((List.range num_steps).map fun i =>
        func (pySlice A (i * step_size) (i * step_size + window_size)),
      num_steps * step_size)

/-- Modelled from the spec: one scheduler invocation of the agent
`iot(func=self.extend, in_stream=self.in_stream)` (§4.2: the input slice is
`[pointer, length)` at invocation time; §4.3: invocation is the only path
through which pointers advance).  The agent reads
`in_stream[pointer : len(in_stream)]`, runs `extend` (appending its output
values to `out_stream`), and its pointer becomes
`pointer + (value returned by extend)`. -/
def invoke {α β : Type} (func : List α → β) (window_size step_size : ℕ)
    (in_stream : List α) (pointer : ℕ) (out_stream : List β) :
    ℕ × List β :=
  let r := extend func window_size step_size
    (pySlice in_stream pointer in_stream.length)
  (pointer + r.2, out_stream ++ r.1)

end sliding_window_test

namespace test_iot_merge

/-- The reducer `f(A_list, z)` of `test_iot_merge`, side effect explicit:
zips the first `n_rows = min(len(A))` elements of the two slices into rows
(`np.column_stack`), appends them to `z`, and returns `[n_rows, n_rows]`. -/
def f {α : Type} (A0 A1 : List α) : List (α × α) × ℕ :=
  let n_rows := min A0.length A1.length
  ((A0.take n_rows).zip (A1.take n_rows), n_rows)

/-- Modelled from the spec: one scheduler invocation of the agent
`iot_merge(f, [x, y], z=z)` (§4.2): each input slice is
`[pointer_i, length_i)` at invocation time, the reducer's rows are appended
to `z`, and each pointer advances by the count the reducer returned for it. -/
def invoke {α : Type} (x y : List α) (px py : ℕ) (z : List (α × α)) :
    (ℕ × ℕ) × List (α × α) :=
  let r := f (pySlice x px x.length) (pySlice y py y.length)
  ((px + r.2, py + r.2), z ++ r.1)

end test_iot_merge

namespace iot

/-- Modelled from the spec: one scheduler round for an agent built by
`iot(func, in_stream)` (§4.2/§4.3).  The stream is first extended with `ext`;
the agent is then invoked on the slice `[pointer, length)` through
`iot.transition` and its stored pointer is replaced by the returned pointer.
`none` is the agent dying of a `ContractViolation`. -/
def round {α : Type} (func : List α → ℤ) (stream : List α) (pointer : ℕ)
    (ext : List α) : Option (List α × ℕ) :=
  let stream' := stream ++ ext
  match transition (β := Unit) func ⟨stream', pointer, stream'.length⟩ () with
  | Except.ok (_, _, new_pointers) =>
      some (stream', (new_pointers.headI).toNat)
  | Except.error _ => none

/-- Modelled from the spec: a whole run of an `iot` agent over a sequence of
stream extensions, recording the slice `[pointer, returned pointer)` each
invocation consumed.  Returns the final stream contents, the final pointer
and the per-invocation consumed slices, or `none` if some invocation died of
a `ContractViolation`. -/
def run {α : Type} (func : List α → ℤ) :
    List (List α) → List α → ℕ → Option (List α × ℕ × List (List α))
  | [], stream, pointer => some (stream, pointer, [])
  | ext :: exts, stream, pointer =>
      match round func stream pointer ext with
      | none => none
      | some (stream', pointer') =>
          match run func exts stream' pointer' with
          | none => none
          | some (s, q, slices) =>
              some (s, q, pySlice stream' pointer pointer' :: slices)

end iot

end IoTPy

namespace timing

/-- Function `clock_drift_from_ntp_server(ntp_server)`: queries the server and returns
`response.offset`, or `None` when the request raises (the `except:` arm logs
and returns `None`).  The network is embedded as an environment `env` mapping
each server to `some offset` or `none` (request failed). -/
def clock_drift_from_ntp_server {ι : Type} (env : ι → Option ℚ)
    (ntp_server : ι) : Option ℚ :=
  env ntp_server

/-- Function `clock_drift_from_first_ntp_server(list_of_ntp_servers)`: tries servers
in order; `if drift:` (Python truthiness: not `None` and not `0.0`) returns
that drift, otherwise moves on; returns `0.0` when the list is exhausted. -/
def clock_drift_from_first_ntp_server {ι : Type} (env : ι → Option ℚ) :
    List ι → ℚ
  | [] => 0
  | ntp_server :: rest =>
      match clock_drift_from_ntp_server env ntp_server with
      | some drift =>
          if drift ≠ 0 then drift
          else clock_drift_from_first_ntp_server env rest
      | none => clock_drift_from_first_ntp_server env rest

/-- Function `clock_drift_from_average_of_ntp_servers(list_of_ntp_servers)`: queries
every server, keeps the non-`None` drifts, and returns their arithmetic mean
when at least one server responded; otherwise the function falls off its end
and returns `None`. -/
def clock_drift_from_average_of_ntp_servers {ι : Type} (env : ι → Option ℚ)
    (list_of_ntp_servers : List ι) : Option ℚ :=
  let list_of_drifts :=
    (list_of_ntp_servers.map (clock_drift_from_ntp_server env)).filterMap id
  if list_of_drifts.isEmpty then none
  else some (list_of_drifts.sum / list_of_drifts.length)

/-- Function `clock_drift_from_median_of_ntp_servers(list_of_ntp_servers)`: queries
every server, keeps the non-`None` drifts; when at least one server responded
sorts them (`sorted`, ascending) and takes `midpoint = len // 2` (Python 2
integer division): the sole element when the count is `1`, the `midpoint`
element when the count is odd, the mean of the `midpoint-1` and `midpoint`
elements when even; otherwise falls off the end and returns `None`.  (The
`len == 0` branch inside the nonempty case is dead code.) -/
def clock_drift_from_median_of_ntp_servers {ι : Type} (env : ι → Option ℚ)
    (list_of_ntp_servers : List ι) : Option ℚ :=
  let list_of_drifts :=
    (list_of_ntp_servers.map (clock_drift_from_ntp_server env)).filterMap id
  if list_of_drifts.isEmpty then none
  else
    let sorted := list_of_drifts.mergeSort (fun a b => decide (a ≤ b))
    let midpoint := sorted.length / 2
    if sorted.length = 0 then some 0
    else if sorted.length = 1 then some (sorted.getD 0 0)
    else if sorted.length % 2 = 1 then some (sorted.getD midpoint 0)
    else some ((sorted.getD (midpoint - 1) 0 + sorted.getD midpoint 0) / 2)

end timing

/-! ## Helper lemmas -/

namespace IoTPy

theorem pySlice_length_eq_drop {α : Type} (l : List α) (p : ℕ) :
    pySlice l p l.length = l.drop p := by
  simp [pySlice]

theorem pySlice_self {α : Type} (l : List α) (p : ℕ) :
    pySlice l p p = [] := by
  simp [pySlice, List.drop_take]

theorem pySlice_append_pySlice {α : Type} (l : List α) {p m q : ℕ}
    (h1 : p ≤ m) (h2 : m ≤ q) (h3 : q ≤ l.length) :
    pySlice l p m ++ pySlice l m q = pySlice l p q := by
  unfold pySlice
  have htake : l.take m = (l.take q).take m := by
    rw [List.take_take, min_eq_left h2]
  rw [htake]
  have hlen : ((l.take q).take m).length = m := by
    simp [List.length_take]
    omega
  calc ((l.take q).take m).drop p ++ (l.take q).drop m
      = ((l.take q).take m).drop p ++
          ((l.take q).drop m).drop (p - ((l.take q).take m).length) := by
        rw [hlen, Nat.sub_eq_zero_of_le h1, List.drop_zero]
    _ = (((l.take q).take m) ++ (l.take q).drop m).drop p := by
        rw [List.drop_append_eq_append_drop]
    _ = (l.take q).drop p := by
        rw [List.take_append_drop]

theorem pySlice_window {α : Type} (A : List α) (a w : ℕ) :
    pySlice A a (a + w) = (A.drop a).take w := by
  simp [pySlice, List.take_drop]

end IoTPy

/-! ## Claims -/

open IoTPy

/-- C8: every invocation of a transition produced by `iot` or `iot_merge`
either dies of a `ContractViolation` or returns an empty list of
output-stream values together with the state unchanged — the only
information handed back to the runtime is the list of new input pointers. -/
theorem iot_transitions_frame {α σ β : Type} (func : List α → ℤ)
    (il : InList α) (st : σ) (mfunc : List (List α) → List ℤ)
    (ils : List (InList α)) (mst : σ) :
    ((∃ e, iot.transition (β := β) func il st = Except.error e) ∨
      ∃ ps, iot.transition (β := β) func il st = Except.ok ([], st, ps)) ∧
    ((∃ e, iot_merge.transition (β := β) mfunc ils mst = Except.error e) ∨
      ∃ ps, iot_merge.transition (β := β) mfunc ils mst =
        Except.ok ([], mst, ps)) := by
  constructor
  · by_cases h : 0 ≤ func (pySlice il.list il.start il.stop)
    · exact Or.inr ⟨[func (pySlice il.list il.start il.stop) + (il.start : ℤ)],
        by simp [iot.transition, h]⟩
    · exact Or.inl ⟨ContractViolation.negativePointer
          (func (pySlice il.list il.start il.stop)),
        by simp [iot.transition, h]⟩
  · simp only [iot_merge.transition]
    by_cases h : (mfunc (ils.map fun il => pySlice il.list il.start il.stop)).length
        = (ils.map fun il => pySlice il.list il.start il.stop).length
    · simp only [h, if_true]
      cases hf : (mfunc (ils.map fun il => pySlice il.list il.start il.stop)).find?
          (fun ns => decide (ns < 0)) with
      | some bad => exact Or.inl ⟨_, rfl⟩
      | none => exact Or.inr ⟨_, rfl⟩
    · simp only [h, if_false]
      exact Or.inl ⟨_, rfl⟩

/-- C1 counterexample: the claim says a returned pointer strictly greater
than the stream length is rejected with a `ContractViolation`.  It is not:
with a user function returning `len(A) + 5` on a stream of length `1`
(pointer `0`), the transition succeeds and returns pointer `6 > 1` — the
asserts in `iot.transition` check only `int`-ness and nonnegativity. -/
theorem iot_overshoot_accepted :
    iot.transition (β := Unit) (fun A => (A.length : ℤ) + 5)
        ⟨([0] : List ℤ), 0, 1⟩ () = Except.ok ([], (), [6]) ∧
      (([0] : List ℤ).length : ℤ) < 6 := by
  constructor
  · rfl
  · decide

/-- C1 amended: the violations `iot.transition` and
`iot_merge.transition` actually reject are: a negative returned displacement
(pointer below `pointer_i`), a wrong-arity result list for `iot_merge`, and a
non-`int`/non-`list` result (static here); the upper bound
`new_pointer ≤ stream_length` is not checked. -/
theorem iot_checked_violations {α σ β : Type} (func : List α → ℤ)
    (il : InList α) (st : σ) (mfunc : List (List α) → List ℤ)
    (ils : List (InList α)) (mst : σ) :
    (func (pySlice il.list il.start il.stop) < 0 →
      iot.transition (β := β) func il st =
        Except.error (ContractViolation.negativePointer
          (func (pySlice il.list il.start il.stop)))) ∧
    ((mfunc (ils.map fun i => pySlice i.list i.start i.stop)).length ≠
        ils.length →
      iot_merge.transition (β := β) mfunc ils mst =
        Except.error (ContractViolation.wrongArity ils.length
          (mfunc (ils.map fun i => pySlice i.list i.start i.stop)).length)) ∧
    ((mfunc (ils.map fun i => pySlice i.list i.start i.stop)).length =
        ils.length →
      (∃ ns ∈ mfunc (ils.map fun i => pySlice i.list i.start i.stop),
          ns < 0) →
      ∃ bad, bad < 0 ∧ iot_merge.transition (β := β) mfunc ils mst =
        Except.error (ContractViolation.negativePointer bad)) := by
  refine ⟨fun hneg => ?_, fun harity => ?_, fun harity hneg => ?_⟩
  · simp [iot.transition, not_le.mpr hneg]
  · rw [iot_merge.transition]
    simp only [List.length_map]
    rw [if_neg harity]
  · rw [iot_merge.transition]
    simp only [List.length_map]
    rw [if_pos harity]
    obtain ⟨ns, hmem, hns⟩ := hneg
    have hsome : ((mfunc (ils.map fun i => pySlice i.list i.start i.stop)).find?
        (fun ns => decide (ns < 0))).isSome := by
      rw [List.find?_isSome]
      exact ⟨ns, hmem, by simpa using hns⟩
    obtain ⟨bad, hbad⟩ := Option.isSome_iff_exists.mp hsome
    have hbadneg : bad < 0 := by simpa using List.find?_some hbad
    rw [hbad]
    exact ⟨bad, hbadneg, rfl⟩

/-- C1 witness: the amended theorem applied at concrete inputs — a
function returning `-1` is rejected, a one-input merge whose function returns
an empty list is rejected for arity, and one returning `[-2]` is rejected for
the negative entry. -/
theorem iot_checked_violations_witness :
    (iot.transition (β := Unit) (fun _ : List ℤ => -1) ⟨[], 0, 0⟩ () =
      Except.error (ContractViolation.negativePointer (-1))) ∧
    (iot_merge.transition (β := Unit) (fun _ => ([] : List ℤ))
        [⟨([] : List ℤ), 0, 0⟩] () =
      Except.error (ContractViolation.wrongArity 1 0)) ∧
    (∃ bad, bad < 0 ∧
      iot_merge.transition (β := Unit) (fun _ => [(-2 : ℤ)])
          [⟨([] : List ℤ), 0, 0⟩] () =
        Except.error (ContractViolation.negativePointer bad)) := by
  refine ⟨?_, ?_, ?_⟩
  · exact (iot_checked_violations (fun _ : List ℤ => -1) ⟨[], 0, 0⟩ ()
      (fun _ => []) [⟨([] : List ℤ), 0, 0⟩] ()).1 (by decide)
  · exact (iot_checked_violations (fun _ : List ℤ => -1) ⟨[], 0, 0⟩ ()
      (fun _ => []) [⟨([] : List ℤ), 0, 0⟩] ()).2.1 (by decide)
  · exact (iot_checked_violations (fun _ : List ℤ => -1) ⟨[], 0, 0⟩ ()
      (fun _ => [(-2 : ℤ)]) [⟨([] : List ℤ), 0, 0⟩] ()).2.2 (by decide)
      ⟨-2, by decide, by decide⟩

/-- C4 counterexample: the claim says returned pointers never exceed the
stream length at invocation time.  With a user function returning
`len(A) + 1` on a two-element stream (pointer `0`), the transition succeeds
with pointer `3 > 2` — nothing in `iot.transition` bounds the pointer above. -/
theorem iot_pointer_can_exceed_length :
    iot.transition (β := Unit) (fun A => (A.length : ℤ) + 1)
        ⟨([3, 4] : List ℤ), 0, 2⟩ () = Except.ok ([], (), [3]) ∧
      (([3, 4] : List ℤ).length : ℤ) < 3 := by
  constructor
  · rfl
  · decide

theorem zip_pointer_ge {α : Type} :
    ∀ (ns : List ℤ) (ils : List (InList α)), ns.length = ils.length →
    (∀ x ∈ ns, 0 ≤ x) →
    List.Forall₂ (fun (p : ℤ) (il : InList α) => (il.start : ℤ) ≤ p)
      ((ns.zip ils).map fun q => q.1 + (q.2.start : ℤ)) ils
  | [], [], _, _ => List.Forall₂.nil
  | n :: ns, il :: ils, hlen, hnn => by
      refine List.Forall₂.cons ?_ ?_
      · have := hnn n (List.mem_cons_self n ns)
        show (il.start : ℤ) ≤ n + il.start
        omega
      · exact zip_pointer_ge ns ils (by simpa using hlen)
          fun x hx => hnn x (List.mem_cons_of_mem n hx)

theorem zip_pointer_le {α : Type} (ns : List ℤ) (ils : List (InList α))
    (h : List.Forall₂ (fun (n : ℤ) (il : InList α) =>
      il.stop = il.list.length ∧ il.start ≤ il.list.length ∧
      n ≤ ((pySlice il.list il.start il.stop).length : ℤ)) ns ils) :
    List.Forall₂ (fun (p : ℤ) (il : InList α) => p ≤ (il.list.length : ℤ))
      ((ns.zip ils).map fun q => q.1 + (q.2.start : ℤ)) ils := by
  induction h with
  | nil => exact List.Forall₂.nil
  | cons h1 h2 ih =>
      rename_i n il ns' ils'
      refine List.Forall₂.cons ?_ ih
      obtain ⟨hstop, hstart, hdisp⟩ := h1
      rw [hstop, pySlice_length_eq_drop, List.length_drop] at hdisp
      show n + (il.start : ℤ) ≤ (il.list.length : ℤ)
      omega

/-- C4 amended: on every successful invocation of a transition built by
`iot` or `iot_merge` the returned pointers are ≥ the invocation-time pointers
(the displacement is asserted nonnegative), so successive pointers are
non-decreasing; but the returned pointers stay ≤ the stream lengths at
invocation time only provided the user function's displacements are at most
the slice lengths — for `iot` and `iot_merge` alike, the code does not
enforce that upper bound. -/
theorem iot_pointer_monotone {α σ β : Type} (func : List α → ℤ)
    (il : InList α) (st : σ) (mfunc : List (List α) → List ℤ)
    (ils : List (InList α)) (mst : σ) :
    (∀ outs st' ps, iot.transition (β := β) func il st =
        Except.ok (outs, st', ps) → ∀ p ∈ ps, (il.start : ℤ) ≤ p) ∧
    (∀ outs st' ps, iot_merge.transition (β := β) mfunc ils mst =
        Except.ok (outs, st', ps) →
      List.Forall₂ (fun (p : ℤ) (il : InList α) => (il.start : ℤ) ≤ p)
        ps ils) ∧
    (il.stop = il.list.length → il.start ≤ il.list.length →
      func (pySlice il.list il.start il.stop) ≤
        ((pySlice il.list il.start il.stop).length : ℤ) →
      ∀ outs st' ps, iot.transition (β := β) func il st =
        Except.ok (outs, st', ps) → ∀ p ∈ ps, p ≤ (il.list.length : ℤ)) ∧
    (List.Forall₂ (fun (n : ℤ) (il : InList α) =>
        il.stop = il.list.length ∧ il.start ≤ il.list.length ∧
        n ≤ ((pySlice il.list il.start il.stop).length : ℤ))
      (mfunc (ils.map fun i => pySlice i.list i.start i.stop)) ils →
      ∀ outs st' ps, iot_merge.transition (β := β) mfunc ils mst =
        Except.ok (outs, st', ps) →
      List.Forall₂ (fun (p : ℤ) (il : InList α) => p ≤ (il.list.length : ℤ))
        ps ils) := by
  refine ⟨?_, ?_, ?_, ?_⟩
  · intro outs st' ps hok p hp
    by_cases h : 0 ≤ func (pySlice il.list il.start il.stop)
    · simp only [iot.transition, if_pos h, Except.ok.injEq, Prod.mk.injEq] at hok
      obtain ⟨-, -, hps⟩ := hok
      subst hps
      simp only [List.mem_singleton] at hp
      subst hp
      omega
    · simp [iot.transition, if_neg h] at hok
  · intro outs st' ps hok
    rw [iot_merge.transition] at hok
    by_cases harity : (mfunc (ils.map fun il =>
        pySlice il.list il.start il.stop)).length =
        (ils.map fun il => pySlice il.list il.start il.stop).length
    · rw [if_pos harity] at hok
      cases hfind : (mfunc (ils.map fun il =>
          pySlice il.list il.start il.stop)).find?
          (fun ns => decide (ns < 0)) with
      | some bad => rw [hfind] at hok; exact absurd hok (by simp)
      | none =>
          rw [hfind] at hok
          simp only [Except.ok.injEq, Prod.mk.injEq] at hok
          obtain ⟨-, -, hps⟩ := hok
          subst hps
          have hlen : (mfunc (ils.map fun il =>
              pySlice il.list il.start il.stop)).length = ils.length := by
            simpa using harity
          have hnn := List.find?_eq_none.mp hfind
          exact zip_pointer_ge _ _ hlen fun x hx => by
            simpa using hnn x hx
    · rw [if_neg harity] at hok
      exact absurd hok (by simp)
  · intro hstop hstart hdisp outs st' ps hok p hp
    by_cases h : 0 ≤ func (pySlice il.list il.start il.stop)
    · simp only [iot.transition, if_pos h, Except.ok.injEq, Prod.mk.injEq] at hok
      obtain ⟨-, -, hps⟩ := hok
      subst hps
      simp only [List.mem_singleton] at hp
      subst hp
      rw [hstop] at hdisp ⊢
      rw [pySlice_length_eq_drop] at hdisp ⊢
      rw [List.length_drop] at hdisp
      omega
    · simp [iot.transition, if_neg h] at hok
  · intro hforall outs st' ps hok
    rw [iot_merge.transition] at hok
    by_cases harity : (mfunc (ils.map fun il =>
        pySlice il.list il.start il.stop)).length =
        (ils.map fun il => pySlice il.list il.start il.stop).length
    · rw [if_pos harity] at hok
      cases hfind : (mfunc (ils.map fun il =>
          pySlice il.list il.start il.stop)).find?
          (fun ns => decide (ns < 0)) with
      | some bad => rw [hfind] at hok; exact absurd hok (by simp)
      | none =>
          rw [hfind] at hok
          simp only [Except.ok.injEq, Prod.mk.injEq] at hok
          obtain ⟨-, -, hps⟩ := hok
          subst hps
          exact zip_pointer_le _ _ hforall
    · rw [if_neg harity] at hok
      exact absurd hok (by simp)

/-- C4 witness: the amended theorem applied to a consume-everything
function on the one-element stream `[7]` and to a merge function returning
`[0]` on a single empty input: all returned pointers respect the lower and
(under the displacement hypotheses) the upper bound, for `iot` and
`iot_merge` alike. -/
theorem iot_pointer_monotone_witness :
    (∀ p ∈ [(1 : ℤ)], ((0 : ℕ) : ℤ) ≤ p) ∧
    List.Forall₂ (fun (p : ℤ) (il : InList ℤ) => (il.start : ℤ) ≤ p)
      [(0 : ℤ)] [⟨([] : List ℤ), 0, 0⟩] ∧
    (∀ p ∈ [(1 : ℤ)], p ≤ ((([7] : List ℤ)).length : ℤ)) ∧
    List.Forall₂ (fun (p : ℤ) (il : InList ℤ) => p ≤ (il.list.length : ℤ))
      [(0 : ℤ)] [⟨([] : List ℤ), 0, 0⟩] := by
  have h := iot_pointer_monotone (β := Unit) (fun A : List ℤ => (A.length : ℤ))
    ⟨[7], 0, 1⟩ () (fun _ => [0]) [⟨([] : List ℤ), 0, 0⟩] ()
  refine ⟨h.1 [] () [1] (by rfl), h.2.1 [] () [0] (by rfl),
    h.2.2.1 (by rfl) (by decide) (by decide) [] () [1] (by rfl),
    h.2.2.2 (List.Forall₂.cons ⟨rfl, Nat.le_refl 0, by decide⟩
      List.Forall₂.nil) [] () [0] (by rfl)⟩

/-- C2 counterexample: the claim says the operator consumes
`steps * step_size` elements "leaving the remaining `n - steps*s` elements
unread".  With `window_size = 1`, `step_size = 2` and one available element,
`extend` reports `2` consumed out of `n = 1` available — the consumption
count can exceed the number of available elements, so no nonnegative
remainder is left unread. -/
theorem sliding_window_overconsumes :
    sliding_window_test.extend (fun l : List ℤ => l.sum) 1 2 [5] =
      ([5], 2) ∧ ¬ 2 ≤ ([(5 : ℤ)] : List ℤ).length := by
  constructor
  · rfl
  · decide

/-- C2 amended: for `window_size ≥ 1` and `1 ≤ step_size ≤ window_size`,
one invocation of the sliding-window operator on `n` available elements
appends nothing and consumes `0` when `n < window_size`; otherwise it
computes `steps = (n - window_size) / step_size + 1`, appends exactly
`steps` results, result `i` being the reducer applied to the length-`w`
window at offset `i * step_size`, and consumes `steps * step_size ≤ n`
elements, leaving the last `n - steps * step_size` elements unread (when
`step_size > window_size` the reported consumption can exceed `n`). -/
theorem sliding_window_extend_spec {α β : Type} (func : List α → β)
    (w s : ℕ) (hs : 1 ≤ s) (hsw : s ≤ w) (A : List α) :
    (A.length < w → sliding_window_test.extend func w s A = ([], 0)) ∧
    (w ≤ A.length →
      (sliding_window_test.extend func w s A).1.length =
        (A.length - w) / s + 1 ∧
      (∀ i < (A.length - w) / s + 1,
        (sliding_window_test.extend func w s A).1.get? i =
          some (func ((A.drop (i * s)).take w)) ∧
        ((A.drop (i * s)).take w).length = w) ∧
      (sliding_window_test.extend func w s A).2 =
        ((A.length - w) / s + 1) * s ∧
      ((A.length - w) / s + 1) * s ≤ A.length) := by
  constructor
  · intro hlt
    simp [sliding_window_test.extend, hlt]
  · intro hge
    have hnlt : ¬ A.length < w := not_lt.mpr hge
    have hsteps : ∀ i < (A.length - w) / s + 1, i * s + w ≤ A.length := by
      intro i hi
      have hi' : i ≤ (A.length - w) / s := by omega
      have : i * s ≤ ((A.length - w) / s) * s :=
        Nat.mul_le_mul_right s hi'
      have hdm : ((A.length - w) / s) * s ≤ A.length - w :=
        Nat.div_mul_le_self _ s
      omega
    refine ⟨?_, ?_, ?_, ?_⟩
    · simp [sliding_window_test.extend, hnlt]
      omega
    · intro i hi
      constructor
      · simp only [sliding_window_test.extend, if_neg hnlt]
        rw [List.get?_map, List.get?_range (by omega : i < 1 + (A.length - w) / s)]
        simp [pySlice_window]
      · have := hsteps i hi
        simp [List.length_take, List.length_drop]
        omega
    · simp [sliding_window_test.extend, hnlt]
      exact Or.inl (by omega)
    · have h0 := hsteps ((A.length - w) / s) (by omega)
      have : ((A.length - w) / s) * s + w ≤ A.length := h0
      have hmul : ((A.length - w) / s + 1) * s = ((A.length - w) / s) * s + s := by
        ring
      omega

/-- C2 witness: the amended theorem applied with a sum reducer,
`window_size = 2`, `step_size = 1` on the three elements `[1, 2, 3]`:
`steps = 2` windows, results from the windows at offsets `0` and `1`,
`2` elements consumed out of `3`. -/
theorem sliding_window_extend_spec_witness :
    (sliding_window_test.extend (fun l : List ℤ => l.sum) 2 1
        [1, 2, 3]).1.length = (3 - 2) / 1 + 1 ∧
    (sliding_window_test.extend (fun l : List ℤ => l.sum) 2 1
        [1, 2, 3]).2 = ((3 - 2) / 1 + 1) * 1 ∧
    ((3 - 2) / 1 + 1) * 1 ≤ 3 := by
  have h := (sliding_window_extend_spec (fun l : List ℤ => l.sum) 2 1
    (by decide) (by decide) [1, 2, 3]).2 (by decide)
  exact ⟨h.1, h.2.2.1, h.2.2.2⟩

/-- C3: with `window_size = 5`, `step_size = 2` and a sum reducer, on the
stream extended with `0..9` at once the sliding-window agent's invocation
appends `[10, 20, 30]` and moves its pointer to `6` (element `9` unread);
after a further extension with `10..19` the next invocation starts at
pointer `6` and the cumulative output becomes
`[10, 20, 30, 40, 50, 60, 70, 80]`. -/
theorem sliding_window_windowing_example :
    sliding_window_test.invoke (fun l : List ℤ => l.sum) 5 2
        ((List.range 10).map fun n => (n : ℤ)) 0 [] = (6, [10, 20, 30]) ∧
    sliding_window_test.invoke (fun l : List ℤ => l.sum) 5 2
        ((List.range 20).map fun n => (n : ℤ)) 6 [10, 20, 30] =
      (16, [10, 20, 30, 40, 50, 60, 70, 80]) := by
  constructor
  · rfl
  · rfl

/-- C5: the two-input merge with the "zip first `min(len)`" reducer:
after stream A is extended with `[0..4]` and run (B still empty), no rows
are emitted and the pointers stay `(0, 0)`; the second call — starting from
exactly the pointers the first call returned — after B is extended with
`[100..108]` emits exactly the rows
`[(0,100), (1,101), (2,102), (3,103), (4,104)]` and advances both pointers
to `5`, never re-reading or re-emitting previously consumed data. -/
theorem iot_merge_zip_example :
    test_iot_merge.invoke ([0, 1, 2, 3, 4] : List ℤ) ([] : List ℤ) 0 0 [] =
      ((0, 0), ([] : List (ℤ × ℤ))) ∧
    (let r1 := test_iot_merge.invoke ([0, 1, 2, 3, 4] : List ℤ)
        ([] : List ℤ) 0 0 [];
      test_iot_merge.invoke [0, 1, 2, 3, 4]
          [100, 101, 102, 103, 104, 105, 106, 107, 108]
          r1.1.1 r1.1.2 r1.2 =
        ((5, 5), [(0, 100), (1, 101), (2, 102), (3, 103), (4, 104)])) := by
  constructor
  · rfl
  · rfl

theorem iot_run_spec {α : Type} (func : List α → ℤ)
    (hf : ∀ A : List α, 0 ≤ func A ∧ func A ≤ (A.length : ℤ)) :
    ∀ (exts : List (List α)) (stream : List α) (p : ℕ),
      p ≤ stream.length →
      ∃ s q slices, iot.run func exts stream p = some (s, q, slices) ∧
        s = stream ++ exts.join ∧ p ≤ q ∧ q ≤ s.length ∧
        slices.join = pySlice s p q := by
  intro exts
  induction exts with
  | nil =>
      intro stream p hp
      exact ⟨stream, p, [], by simp [iot.run], by simp, le_refl _, hp,
        by simp [pySlice_self]⟩
  | cons ext exts ih =>
      intro stream p hp
      have hp' : p ≤ (stream ++ ext).length := by
        simp only [List.length_append]
        omega
      have hA : pySlice (stream ++ ext) p (stream ++ ext).length =
          (stream ++ ext).drop p := pySlice_length_eq_drop _ _
      obtain ⟨h0, hle⟩ := hf ((stream ++ ext).drop p)
      rw [List.length_drop] at hle
      set d := func ((stream ++ ext).drop p) with hd
      have hround : iot.round func stream p ext =
          some (stream ++ ext, (d + (p : ℤ)).toNat) := by
        rw [iot.round, iot.transition]
        simp only [hA, ← hd, if_pos h0]
        rfl
      have hple : p ≤ (d + (p : ℤ)).toNat := by omega
      have hqle : (d + (p : ℤ)).toNat ≤ (stream ++ ext).length := by omega
      obtain ⟨s, q, slices, hrun, hs, hpq, hqs, hjoin⟩ :=
        ih (stream ++ ext) ((d + (p : ℤ)).toNat) hqle
      refine ⟨s, q, pySlice (stream ++ ext) p ((d + (p : ℤ)).toNat) :: slices,
        ?_, ?_, ?_, ?_, ?_⟩
      · simp only [iot.run, hround, hrun]
      · rw [hs]
        simp [List.join]
      · omega
      · exact hqs
      · have hpre : pySlice (stream ++ ext) p ((d + (p : ℤ)).toNat) =
            pySlice s p ((d + (p : ℤ)).toNat) := by
          unfold pySlice
          rw [hs, List.take_append_of_le_length hqle]
        simp only [List.join] at hjoin ⊢
        rw [List.flatten_cons, hjoin, hpre]
        exact pySlice_append_pySlice s hple hpq hqs

/-- C6: for an `iot` agent whose user function returns a displacement
inside the offered slice (`0 ≤ func A ≤ len(A)`), over any sequence of
stream extensions the consumed slices — each from the invocation's starting
pointer to the returned pointer — are contiguous (each begins exactly where
the previous invocation stopped, by the pointer-update rule), and their
in-order concatenation equals the prefix of the full appended history up to
the final pointer: every appended element is consumed exactly once, except
the suffix beyond the final pointer that the function left unread. -/
theorem iot_no_silent_loss {α : Type} (func : List α → ℤ)
    (hf : ∀ A : List α, 0 ≤ func A ∧ func A ≤ (A.length : ℤ))
    (exts : List (List α)) :
    ∃ s q slices, iot.run func exts [] 0 = some (s, q, slices) ∧
      s = exts.join ∧ q ≤ s.length ∧ slices.join = s.take q := by
  obtain ⟨s, q, slices, hrun, hs, -, hqs, hjoin⟩ :=
    iot_run_spec func hf exts [] 0 (by simp)
  refine ⟨s, q, slices, hrun, by simpa using hs, hqs, ?_⟩
  rw [hjoin]
  simp [pySlice]

/-- C6 witness: the theorem applied to the consume-everything function
over the extensions `[[1, 2], [3]]`. -/
theorem iot_no_silent_loss_witness :
    ∃ s q slices,
      iot.run (fun A : List ℤ => (A.length : ℤ)) [[1, 2], [3]] [] 0 =
        some (s, q, slices) ∧
      s = [[1, 2], [3]].join ∧ q ≤ s.length ∧ slices.join = s.take q :=
  iot_no_silent_loss (fun A : List ℤ => (A.length : ℤ))
    (fun _ => ⟨Int.ofNat_nonneg _, le_refl _⟩) [[1, 2], [3]]

namespace timing

theorem first_eq_zero_of_unusable {ι : Type} (env : ι → Option ℚ) :
    ∀ servers : List ι, (∀ s ∈ servers, env s = none ∨ env s = some 0) →
    clock_drift_from_first_ntp_server env servers = 0
  | [], _ => rfl
  | srv :: rest, h => by
      rcases h srv (List.mem_cons_self srv rest) with h0 | h0 <;>
        simp [clock_drift_from_first_ntp_server, clock_drift_from_ntp_server,
          h0, first_eq_zero_of_unusable env rest
            fun s hs => h s (List.mem_cons_of_mem srv hs)]

/-- The drift the claim describes: the first drift in server-list order that
is neither a failed query (`None`) nor exactly `0.0`. -/
def firstUsableDrift {ι : Type} (env : ι → Option ℚ) (servers : List ι) :
    Option ℚ :=
  (servers.filterMap env).find? fun d => decide (d ≠ 0)

theorem first_eq_firstUsable {ι : Type} (env : ι → Option ℚ) :
    ∀ servers : List ι,
      clock_drift_from_first_ntp_server env servers =
        (firstUsableDrift env servers).getD 0
  | [] => rfl
  | srv :: rest => by
      cases h0 : env srv with
      | none =>
          simp [clock_drift_from_first_ntp_server,
            clock_drift_from_ntp_server, firstUsableDrift, h0,
            first_eq_firstUsable env rest]
      | some d =>
          by_cases hd : d = 0
          · subst hd
            simp [clock_drift_from_first_ntp_server,
              clock_drift_from_ntp_server, firstUsableDrift, h0,
              first_eq_firstUsable env rest]
          · simp [clock_drift_from_first_ntp_server,
              clock_drift_from_ntp_server, firstUsableDrift, h0, hd,
              List.find?_cons_of_pos]

end timing

/-- C7: `clock_drift_from_first_ntp_server` propagates no failure: a
server whose query fails (the single-server helper returned `None` in place
of the raised exception) is skipped and the next server in list order is
tried, and when every server in the list fails the function returns the
sentinel `0.0` instead of raising. -/
theorem first_ntp_absorbs_failures {ι : Type} (env : ι → Option ℚ)
    (srv : ι) (rest servers : List ι) :
    (env srv = none →
      timing.clock_drift_from_first_ntp_server env (srv :: rest) =
        timing.clock_drift_from_first_ntp_server env rest) ∧
    ((∀ s ∈ servers, env s = none) →
      timing.clock_drift_from_first_ntp_server env servers = 0) := by
  constructor
  · intro h0
    simp [timing.clock_drift_from_first_ntp_server,
      timing.clock_drift_from_ntp_server, h0]
  · intro hall
    exact timing.first_eq_zero_of_unusable env servers
      fun s hs => Or.inl (hall s hs)

/-- C7 witness: with every query failing, server `0` is skipped and the
whole two-server list yields the sentinel `0`. -/
theorem first_ntp_absorbs_failures_witness :
    (timing.clock_drift_from_first_ntp_server
        (fun _ : ℕ => (none : Option ℚ)) [0, 1] =
      timing.clock_drift_from_first_ntp_server
        (fun _ : ℕ => (none : Option ℚ)) [1]) ∧
    timing.clock_drift_from_first_ntp_server
        (fun _ : ℕ => (none : Option ℚ)) [0, 1] = 0 := by
  have h := first_ntp_absorbs_failures (fun _ : ℕ => (none : Option ℚ))
    0 [1] [0, 1]
  exact ⟨h.1 rfl, h.2 fun s _ => rfl⟩

/-- C9: a measured drift of exactly `0.0` is treated like a failed
server (Python falsiness of `0.0`): the server is skipped and the next is
queried; the function returns the first non-`None`, nonzero drift in list
order, and `0.0` when every server fails or reports exactly `0.0`. -/
theorem first_ntp_skips_zero {ι : Type} (env : ι → Option ℚ) (srv : ι)
    (rest servers : List ι) :
    (env srv = some 0 →
      timing.clock_drift_from_first_ntp_server env (srv :: rest) =
        timing.clock_drift_from_first_ntp_server env rest) ∧
    (timing.clock_drift_from_first_ntp_server env servers =
      (timing.firstUsableDrift env servers).getD 0) ∧
    ((∀ s ∈ servers, env s = none ∨ env s = some 0) →
      timing.clock_drift_from_first_ntp_server env servers = 0) := by
  refine ⟨fun h0 => ?_, timing.first_eq_firstUsable env servers,
    timing.first_eq_zero_of_unusable env servers⟩
  simp [timing.clock_drift_from_first_ntp_server,
    timing.clock_drift_from_ntp_server, h0]

/-- C9 witness: server `0` reports exactly `0` and is skipped; the
first usable drift is server `2`'s `3`; and a list whose servers all fail or
report `0` yields `0`. -/
theorem first_ntp_skips_zero_witness :
    (timing.clock_drift_from_first_ntp_server
        (fun i : ℕ => ([some 0, none, some (3 : ℚ)].getD i none)) [0, 1, 2] =
      timing.clock_drift_from_first_ntp_server
        (fun i : ℕ => ([some 0, none, some (3 : ℚ)].getD i none)) [1, 2]) ∧
    (timing.clock_drift_from_first_ntp_server
        (fun i : ℕ => ([some 0, none, some (3 : ℚ)].getD i none)) [0, 1, 2] =
      (timing.firstUsableDrift
        (fun i : ℕ => ([some 0, none, some (3 : ℚ)].getD i none))
        [0, 1, 2]).getD 0) ∧
    timing.clock_drift_from_first_ntp_server
        (fun _ : ℕ => (some (0 : ℚ))) [5] = 0 := by
  refine ⟨?_, ?_, ?_⟩
  · exact (first_ntp_skips_zero
      (fun i : ℕ => ([some 0, none, some (3 : ℚ)].getD i none))
      0 [1, 2] [0, 1, 2]).1 rfl
  · exact (first_ntp_skips_zero
      (fun i : ℕ => ([some 0, none, some (3 : ℚ)].getD i none))
      0 [1, 2] [0, 1, 2]).2.1
  · exact (first_ntp_skips_zero (fun _ : ℕ => (some (0 : ℚ))) 5 [] [5]).2.2
      fun s _ => Or.inr rfl

/-- C10: when every server fails, `clock_drift_from_average_of_ntp_servers`
and `clock_drift_from_median_of_ntp_servers` return no value (`None`) —
unlike the first-responding strategy, which returns `0.0`; when at least one
server responds, the average function returns the arithmetic mean of the
non-`None` drifts and the median function the middle drift (odd count) or
the mean of the two middle drifts (even count) of the sorted non-`None`
drifts. -/
theorem ntp_average_median_spec {ι : Type} (env : ι → Option ℚ)
    (servers : List ι) :
    ((∀ s ∈ servers, env s = none) →
      timing.clock_drift_from_average_of_ntp_servers env servers = none ∧
      timing.clock_drift_from_median_of_ntp_servers env servers = none ∧
      timing.clock_drift_from_first_ntp_server env servers = 0) ∧
    ((servers.map (timing.clock_drift_from_ntp_server env)).filterMap id ≠
        [] →
      timing.clock_drift_from_average_of_ntp_servers env servers =
        some (((servers.map
            (timing.clock_drift_from_ntp_server env)).filterMap id).sum /
          ((servers.map
            (timing.clock_drift_from_ntp_server env)).filterMap id).length) ∧
      ∃ sortedD : List ℚ, sortedD.Sorted (· ≤ ·) ∧
        sortedD.Perm ((servers.map
          (timing.clock_drift_from_ntp_server env)).filterMap id) ∧
        timing.clock_drift_from_median_of_ntp_servers env servers =
          some (if sortedD.length % 2 = 1 then
              sortedD.getD (sortedD.length / 2) 0
            else
              (sortedD.getD (sortedD.length / 2 - 1) 0 +
                sortedD.getD (sortedD.length / 2) 0) / 2)) := by
  constructor
  · intro hall
    have hnil : (servers.map
        (timing.clock_drift_from_ntp_server env)).filterMap id = [] := by
      rw [List.filterMap_eq_nil]
      intro a ha
      obtain ⟨s, hs, rfl⟩ := List.mem_map.mp ha
      exact hall s hs
    refine ⟨?_, ?_, ?_⟩
    · simp [timing.clock_drift_from_average_of_ntp_servers, hnil]
    · simp [timing.clock_drift_from_median_of_ntp_servers, hnil]
    · exact timing.first_eq_zero_of_unusable env servers
        fun s hs => Or.inl (hall s hs)
  · intro hne
    have hempty : ((servers.map
        (timing.clock_drift_from_ntp_server env)).filterMap id).isEmpty =
        false := by
      simpa [List.isEmpty_iff] using hne
    constructor
    · rw [timing.clock_drift_from_average_of_ntp_servers]
      simp only [hempty, Bool.false_eq_true, if_false]
    · refine ⟨((servers.map
          (timing.clock_drift_from_ntp_server env)).filterMap id).mergeSort
            (fun a b => decide (a ≤ b)),
        List.sorted_mergeSort' _, List.mergeSort_perm _ _, ?_⟩
      rw [timing.clock_drift_from_median_of_ntp_servers]
      simp only [hempty, Bool.false_eq_true, if_false]
      set D := (servers.map
        (timing.clock_drift_from_ntp_server env)).filterMap id with hD
      set S := D.mergeSort (fun a b => decide (a ≤ b)) with hS
      have hlen : S.length = D.length := List.length_mergeSort _
      have hDpos : D.length ≠ 0 := by
        simpa [List.length_eq_zero] using hne
      have h0 : ¬ S.length = 0 := by omega
      rw [if_neg h0]
      by_cases h1 : S.length = 1
      · rw [if_pos h1, h1]
        norm_num
      · rw [if_neg h1]
        by_cases hodd : S.length % 2 = 1
        · rw [if_pos hodd, if_pos hodd]
        · rw [if_neg hodd, if_neg hodd]

/-- C10 witness: with every query failing both functions return `None`
while the first-responding strategy returns `0`; with responses
`{1, 5, 3}` the average is their mean and the median the middle of the
sorted drifts. -/
theorem ntp_average_median_spec_witness :
    (timing.clock_drift_from_average_of_ntp_servers
        (fun _ : ℕ => (none : Option ℚ)) [0] = none ∧
      timing.clock_drift_from_median_of_ntp_servers
        (fun _ : ℕ => (none : Option ℚ)) [0] = none ∧
      timing.clock_drift_from_first_ntp_server
        (fun _ : ℕ => (none : Option ℚ)) [0] = 0) ∧
    (timing.clock_drift_from_average_of_ntp_servers
        (fun i : ℕ => ([some 1, some 5, none, some (3 : ℚ)].getD i none))
        [0, 1, 2, 3] =
      some ((([0, 1, 2, 3].map (timing.clock_drift_from_ntp_server
          (fun i : ℕ => ([some 1, some 5, none, some (3 : ℚ)].getD i
            none)))).filterMap id).sum /
        (([0, 1, 2, 3].map (timing.clock_drift_from_ntp_server
          (fun i : ℕ => ([some 1, some 5, none, some (3 : ℚ)].getD i
            none)))).filterMap id).length) ∧
      ∃ sortedD : List ℚ, sortedD.Sorted (· ≤ ·) ∧
        sortedD.Perm (([0, 1, 2, 3].map (timing.clock_drift_from_ntp_server
          (fun i : ℕ => ([some 1, some 5, none, some (3 : ℚ)].getD i
            none)))).filterMap id) ∧
        timing.clock_drift_from_median_of_ntp_servers
            (fun i : ℕ => ([some 1, some 5, none, some (3 : ℚ)].getD i none))
            [0, 1, 2, 3] =
          some (if sortedD.length % 2 = 1 then
              sortedD.getD (sortedD.length / 2) 0
            else
              (sortedD.getD (sortedD.length / 2 - 1) 0 +
                sortedD.getD (sortedD.length / 2) 0) / 2)) :=
  ⟨(ntp_average_median_spec (fun _ : ℕ => (none : Option ℚ)) [0]).1
      (fun s _ => rfl),
    (ntp_average_median_spec
      (fun i : ℕ => ([some 1, some 5, none, some (3 : ℚ)].getD i none))
      [0, 1, 2, 3]).2 (by decide)⟩
